import Mathlib

/-!
# SocialFi trading core: formal verification of the spec against the code

Shallow embedding of the bonding-curve AMM engine, the fee distributor and
the trade-execution state machine of the SocialFi repository, with theorems
settling the frozen claims about the specification.

The curve functions `get_price`, `get_buy_cost`, `get_sell_revenue` and the
fee split of `distribute_fees` are translated from the Python code embedded
in `src/ARCHITECTURE.md` (AMM Engine section).  The trade executor, the
validation layer and the idempotency protocol have no code under `src/`
(only declarations in `src/unnamed/part_000` and the security notes of
`ARCHITECTURE.md`); those parts are modelled from the spec and are marked
as such in their doc comments.
-/

open Real

noncomputable section

/-- Price function `get_price` from `src/ARCHITECTURE.md`:
`return base * (supply ** exponent)` with defaults `base = 0.01`,
`exponent = 1.5`. -/
def get_price (supply : ℝ) (base : ℝ := 0.01) (exponent : ℝ := 1.5) : ℝ :=
  base * supply ^ exponent

/-- The dict returned by `get_buy_cost`. -/
structure BuyQuote where
  cost_before_fee : ℝ
  fee : ℝ
  total_cost : ℝ
  avg_price : ℝ
  new_supply : ℝ
  new_price : ℝ

/-- Function `get_buy_cost` from `src/ARCHITECTURE.md`: cost to buy `shares`
shares, the integral of the price function from `current_supply` to
`current_supply + shares`, plus a 2% fee. -/
def get_buy_cost (current_supply : ℝ) (shares : ℝ) : BuyQuote :=
  let base : ℝ := 0.01
  let e : ℝ := 1.5
  let cost_before_fee := (base / (e + 1)) *
    ((current_supply + shares) ^ (e + 1) - current_supply ^ (e + 1))
  let fee := cost_before_fee * 0.02
  let total_cost := cost_before_fee + fee
  let avg_price := cost_before_fee / shares
  let new_supply := current_supply + shares
  let new_price := get_price new_supply
  { cost_before_fee := cost_before_fee
    fee := fee
    total_cost := total_cost
    avg_price := avg_price
    new_supply := new_supply
    new_price := new_price }

/-- The dict returned by `get_sell_revenue`. -/
structure SellQuote where
  revenue_before_fee : ℝ
  fee : ℝ
  total_revenue : ℝ
  avg_price : ℝ
  new_supply : ℝ
  new_price : ℝ

/-- Function `get_sell_revenue` from `src/ARCHITECTURE.md`: revenue from
selling `shares` shares, the integral of the price function from
`current_supply - shares` to `current_supply`, minus a 2% fee. -/
def get_sell_revenue (current_supply : ℝ) (shares : ℝ) : SellQuote :=
  let base : ℝ := 0.01
  let e : ℝ := 1.5
  let revenue_before_fee := (base / (e + 1)) *
    (current_supply ^ (e + 1) - (current_supply - shares) ^ (e + 1))
  let fee := revenue_before_fee * 0.02
  let total_revenue := revenue_before_fee - fee
  let avg_price := revenue_before_fee / shares
  let new_supply := current_supply - shares
  let new_price := get_price new_supply
  { revenue_before_fee := revenue_before_fee
    fee := fee
    total_revenue := total_revenue
    avg_price := avg_price
    new_supply := new_supply
    new_price := new_price }

/-- The three shares computed by `distribute_fees` in `src/ARCHITECTURE.md`. -/
structure FeeSplit where
  creator_share : ℝ
  platform_share : ℝ
  liquidity_share : ℝ

/-- The pure split computed by `distribute_fees` in `src/ARCHITECTURE.md`:
`creator_fee = fee_amount * 0.50`, `platform_fee = fee_amount * 0.30`,
`liquidity_fee = fee_amount * 0.20`. -/
def distribute_fees_split (fee_amount : ℝ) : FeeSplit :=
  { creator_share := fee_amount * 0.50
    platform_share := fee_amount * 0.30
    liquidity_share := fee_amount * 0.20 }

/-- Error taxonomy of the spec (section 7) and of the validation notes in
`src/unnamed/part_000`. -/
inductive TradeError
  | invalidQuantity
  | marketFrozen
  | insufficientSupply
  | insufficientBalance
  | insufficientShares
deriving DecidableEq

/-- Modelled from the spec: the validation layer that guards `get_buy_cost`
is not under `src/` (the repository only declares a validation layer in
`src/unnamed/part_000`).  Per spec section 4.1, `buy_cost` requires
`shares > 0` and fails with `InvalidQuantity` otherwise; on success it
returns the pre-fee cost computed by the repository's `get_buy_cost`. -/
def buy_cost (supply shares : ℝ) : Except TradeError ℝ :=
  if shares ≤ 0 then .error .invalidQuantity
  else .ok (get_buy_cost supply shares).cost_before_fee

/-- Modelled from the spec: the validation layer that guards
`get_sell_revenue` is not under `src/`.  Per spec section 4.1,
`sell_revenue` requires `shares ≤ supply` and fails with
`InsufficientSupply` otherwise; quantities must also be positive
(spec section 4.2); on success it returns the pre-fee revenue computed by
the repository's `get_sell_revenue`. -/
def sell_revenue (supply shares : ℝ) : Except TradeError ℝ :=
  if supply < shares then .error .insufficientSupply
  else if shares ≤ 0 then .error .invalidQuantity
  else .ok (get_sell_revenue supply shares).revenue_before_fee

/-- Trade direction. -/
inductive TradeType
  | buy
  | sell
deriving DecidableEq

/-- Market record, after the `markets` table of `src/ARCHITECTURE.md` and
the spec's data model (section 3).  `creator_id` stands for the creator of
the post behind the market, the recipient of the creator fee share. -/
structure Market where
  creator_id : ℕ
  total_supply : ℝ
  price_current : ℝ
  total_volume : ℝ
  fees_collected : ℝ
  liquidity_pool : ℝ
  creator_earnings : ℝ
  is_frozen : Bool
  version : ℕ

/-- Position record (`balances` table of `src/ARCHITECTURE.md`, `Position`
of the spec's data model): a user's holding in one market. -/
structure Position where
  shares_owned : ℝ
  avg_buy_price : ℝ

/-- Immutable trade audit record, after the `trades` table of
`src/ARCHITECTURE.md`; its `id` is derived from the idempotency key. -/
structure Trade where
  id : String
  market_id : ℕ
  user_id : ℕ
  trade_type : TradeType
  shares : ℝ
  price_per_share : ℝ
  total_amount : ℝ
  fee_amount : ℝ
  supply_before : ℝ
  supply_after : ℝ

/-- The ledger: markets, user credit balances, per-user per-market
positions, and the separately tracked platform fee revenue. -/
structure Ledger where
  markets : ℕ → Market
  balances : ℕ → ℝ
  positions : ℕ → ℕ → Position
  platform_revenue : ℝ

/-- A trade request as received by the executor (spec section 4.4). -/
structure TradeRequest where
  user_id : ℕ
  market_id : ℕ
  trade_type : TradeType
  shares : ℝ
  idempotency_key : String

/-- Terminal outcome of one `execute_trade` call. -/
inductive TradeResult
  | committed (t : Trade)
  | rejected (e : TradeError)

/-- Full executor state: the ledger, the idempotency map (key to the trade
it produced) and the append-only trade log. -/
structure ExecState where
  ledger : Ledger
  idem : String → Option Trade
  trades : List Trade

/-- Modelled from the spec: the trade executor (spec section 4.4) has no
code under `src/`; `src/unnamed/part_000` only declares idempotency keys,
optimistic locking and invariant checks.  One sequential `execute_trade`
step: short-circuit on a resolved idempotency key, validate
(`InvalidQuantity`, `MarketFrozen`, `InsufficientSupply`,
`InsufficientBalance`, `InsufficientShares`), quote through the
repository's curve functions, then commit the full write set including the
fee distribution of `distribute_fees`. -/
def execute_trade (s : ExecState) (req : TradeRequest) :
    TradeResult × ExecState :=
  match s.idem req.idempotency_key with
  | some t => (.committed t, s)
  | none =>
    let m := s.ledger.markets req.market_id
    if req.shares ≤ 0 then (.rejected .invalidQuantity, s)
    else if m.is_frozen then (.rejected .marketFrozen, s)
    else
      match req.trade_type with
      | .buy =>
        let q := get_buy_cost m.total_supply req.shares
        if s.ledger.balances req.user_id < q.total_cost then
          (.rejected .insufficientBalance, s)
        else
          let split := distribute_fees_split q.fee
          let pos := s.ledger.positions req.user_id req.market_id
          let t : Trade :=
            { id := req.idempotency_key
              market_id := req.market_id
              user_id := req.user_id
              trade_type := .buy
              shares := req.shares
              price_per_share := q.avg_price
              total_amount := q.total_cost
              fee_amount := q.fee
              supply_before := m.total_supply
              supply_after := q.new_supply }
          let m' : Market :=
            { m with
              total_supply := q.new_supply
              price_current := q.new_price
              total_volume := m.total_volume + q.total_cost
              fees_collected := m.fees_collected + q.fee
              liquidity_pool := m.liquidity_pool + split.liquidity_share
              creator_earnings := m.creator_earnings + split.creator_share
              version := m.version + 1 }
          let bal1 := Function.update s.ledger.balances req.user_id
            (s.ledger.balances req.user_id - q.total_cost)
          let bal2 := Function.update bal1 m.creator_id
            (bal1 m.creator_id + split.creator_share)
          let pos' : Position :=
            { shares_owned := pos.shares_owned + req.shares
              avg_buy_price :=
                (pos.shares_owned * pos.avg_buy_price + q.cost_before_fee) /
                  (pos.shares_owned + req.shares) }
          (.committed t,
            { ledger :=
                { markets := Function.update s.ledger.markets req.market_id m'
                  balances := bal2
                  positions := Function.update s.ledger.positions req.user_id
                    (Function.update (s.ledger.positions req.user_id)
                      req.market_id pos')
                  platform_revenue :=
                    s.ledger.platform_revenue + split.platform_share }
              idem := Function.update s.idem req.idempotency_key (some t)
              trades := t :: s.trades })
      | .sell =>
        if m.total_supply < req.shares then
          (.rejected .insufficientSupply, s)
        else
          let q := get_sell_revenue m.total_supply req.shares
          let pos := s.ledger.positions req.user_id req.market_id
          if pos.shares_owned < req.shares then
            (.rejected .insufficientShares, s)
          else
            let split := distribute_fees_split q.fee
            let t : Trade :=
              { id := req.idempotency_key
                market_id := req.market_id
                user_id := req.user_id
                trade_type := .sell
                shares := req.shares
                price_per_share := q.avg_price
                total_amount := q.total_revenue
                fee_amount := q.fee
                supply_before := m.total_supply
                supply_after := q.new_supply }
            let m' : Market :=
              { m with
                total_supply := q.new_supply
                price_current := q.new_price
                total_volume := m.total_volume + q.total_revenue
                fees_collected := m.fees_collected + q.fee
                liquidity_pool := m.liquidity_pool + split.liquidity_share
                creator_earnings := m.creator_earnings + split.creator_share
                version := m.version + 1 }
            let bal1 := Function.update s.ledger.balances req.user_id
              (s.ledger.balances req.user_id + q.total_revenue)
            let bal2 := Function.update bal1 m.creator_id
              (bal1 m.creator_id + split.creator_share)
            let pos' : Position :=
              { shares_owned := pos.shares_owned - req.shares
                avg_buy_price := pos.avg_buy_price }
            (.committed t,
              { ledger :=
                  { markets := Function.update s.ledger.markets req.market_id m'
                    balances := bal2
                    positions := Function.update s.ledger.positions req.user_id
                      (Function.update (s.ledger.positions req.user_id)
                        req.market_id pos')
                    platform_revenue :=
                      s.ledger.platform_revenue + split.platform_share }
                idem := Function.update s.idem req.idempotency_key (some t)
                trades := t :: s.trades })

/-- Default market record per the `markets` table of `src/ARCHITECTURE.md`
(`total_supply DEFAULT 100.00`, `price_current DEFAULT 1.00`, all fee
fields 0, not frozen) and the `markets` document defaults of
`src/unnamed/part_000` (`total_supply: 100.0`, `price_current: 1.0`,
`version: 0`). -/
def marketDefaults : Market :=
  { creator_id := 0
    total_supply := 100
    price_current := 1
    total_volume := 0
    fees_collected := 0
    liquidity_pool := 0
    creator_earnings := 0
    is_frozen := false
    version := 0 }

/-- Fresh system state: every market carries the schema defaults, every
user the 1000 starting credits of the `users` table, no positions, no
resolved idempotency keys, no trades. -/
def initState : ExecState :=
  { ledger :=
      { markets := fun _ => marketDefaults
        balances := fun _ => 1000
        positions := fun _ _ => { shares_owned := 0, avg_buy_price := 0 }
        platform_revenue := 0 }
    idem := fun _ => none
    trades := [] }

/-- States reachable from the fresh state by `execute_trade` steps. -/
inductive Reachable : ExecState → Prop
  | init : Reachable initState
  | step (s : ExecState) (req : TradeRequest) :
      Reachable s → Reachable (execute_trade s req).2

/-- The non-negativity invariant of spec section 8: every market supply,
every credit balance and every position's share count is non-negative. -/
def LedgerNonNeg (L : Ledger) : Prop :=
  (∀ m, 0 ≤ (L.markets m).total_supply) ∧
  (∀ u, 0 ≤ L.balances u) ∧
  (∀ u m, 0 ≤ (L.positions u m).shares_owned)

/-- A concrete market used to instantiate theorems with hypotheses: the
schema defaults except an empty supply. -/
def demoMarket : Market := { marketDefaults with total_supply := 0 }

/-- A concrete executor state used to instantiate theorems with
hypotheses. -/
def demoState : ExecState :=
  { initState with
    ledger := { initState.ledger with markets := fun _ => demoMarket } }

/-- A concrete buy request used to instantiate theorems with hypotheses. -/
def demoReq : TradeRequest :=
  { user_id := 1
    market_id := 0
    trade_type := .buy
    shares := 1
    idempotency_key := "k" }

end

@[simp] lemma get_buy_cost_cost_before_fee (s sh : ℝ) :
    (get_buy_cost s sh).cost_before_fee =
      (0.01 / (1.5 + 1)) * ((s + sh) ^ (1.5 + 1 : ℝ) - s ^ (1.5 + 1 : ℝ)) := rfl

@[simp] lemma get_buy_cost_fee (s sh : ℝ) :
    (get_buy_cost s sh).fee = (get_buy_cost s sh).cost_before_fee * 0.02 := rfl

@[simp] lemma get_buy_cost_total_cost (s sh : ℝ) :
    (get_buy_cost s sh).total_cost =
      (get_buy_cost s sh).cost_before_fee + (get_buy_cost s sh).fee := rfl

@[simp] lemma get_buy_cost_avg_price (s sh : ℝ) :
    (get_buy_cost s sh).avg_price = (get_buy_cost s sh).cost_before_fee / sh := rfl

@[simp] lemma get_buy_cost_new_supply (s sh : ℝ) :
    (get_buy_cost s sh).new_supply = s + sh := rfl

@[simp] lemma get_buy_cost_new_price (s sh : ℝ) :
    (get_buy_cost s sh).new_price = get_price (s + sh) := rfl

@[simp] lemma get_sell_revenue_revenue_before_fee (s sh : ℝ) :
    (get_sell_revenue s sh).revenue_before_fee =
      (0.01 / (1.5 + 1)) * (s ^ (1.5 + 1 : ℝ) - (s - sh) ^ (1.5 + 1 : ℝ)) := rfl

@[simp] lemma get_sell_revenue_fee (s sh : ℝ) :
    (get_sell_revenue s sh).fee =
      (get_sell_revenue s sh).revenue_before_fee * 0.02 := rfl

@[simp] lemma get_sell_revenue_total_revenue (s sh : ℝ) :
    (get_sell_revenue s sh).total_revenue =
      (get_sell_revenue s sh).revenue_before_fee - (get_sell_revenue s sh).fee := rfl

@[simp] lemma get_sell_revenue_new_supply (s sh : ℝ) :
    (get_sell_revenue s sh).new_supply = s - sh := rfl

@[simp] lemma get_sell_revenue_new_price (s sh : ℝ) :
    (get_sell_revenue s sh).new_price = get_price (s - sh) := rfl

@[simp] lemma distribute_fees_split_creator (f : ℝ) :
    (distribute_fees_split f).creator_share = f * 0.50 := rfl

@[simp] lemma distribute_fees_split_platform (f : ℝ) :
    (distribute_fees_split f).platform_share = f * 0.30 := rfl

@[simp] lemma distribute_fees_split_liquidity (f : ℝ) :
    (distribute_fees_split f).liquidity_share = f * 0.20 := rfl

/-- The buy cost before fee is non-negative whenever the starting supply is
non-negative and a non-negative quantity is bought. -/
lemma cost_before_fee_nonneg {s sh : ℝ} (hs : 0 ≤ s) (hsh : 0 ≤ sh) :
    0 ≤ (get_buy_cost s sh).cost_before_fee := by
  have hmono : s ^ (1.5 + 1 : ℝ) ≤ (s + sh) ^ (1.5 + 1 : ℝ) :=
    Real.rpow_le_rpow hs (by linarith) (by norm_num)
  have h1 : (0:ℝ) ≤ 0.01 / (1.5 + 1) := by norm_num
  rw [get_buy_cost_cost_before_fee]
  exact mul_nonneg h1 (by linarith)

/-- The sell revenue before fee is non-negative whenever
`0 ≤ shares ≤ supply`. -/
lemma revenue_before_fee_nonneg {s sh : ℝ} (hsh : 0 ≤ sh) (hle : sh ≤ s) :
    0 ≤ (get_sell_revenue s sh).revenue_before_fee := by
  have hmono : (s - sh) ^ (1.5 + 1 : ℝ) ≤ s ^ (1.5 + 1 : ℝ) :=
    Real.rpow_le_rpow (by linarith) (by linarith) (by norm_num)
  have h1 : (0:ℝ) ≤ 0.01 / (1.5 + 1) := by norm_num
  rw [get_sell_revenue_revenue_before_fee]
  exact mul_nonneg h1 (by linarith)

/-- Pointwise properties survive a `Function.update` whose new value also
satisfies them. -/
lemma update_forall {α β : Type} [DecidableEq α] (P : β → Prop) (f : α → β)
    (a : α) (x : β) (hf : ∀ u, P (f u)) (hx : P x) :
    ∀ u, P (Function.update f a x u) := by
  intro u
  rcases eq_or_ne u a with rfl | hne
  · simpa using hx
  · rw [Function.update_noteq hne]
    exact hf u

/-- One `execute_trade` step preserves the non-negativity invariant. -/
lemma execute_trade_preserves_nonneg (s : ExecState) (req : TradeRequest)
    (h : LedgerNonNeg s.ledger) :
    LedgerNonNeg (execute_trade s req).2.ledger := by
  obtain ⟨hm, hb, hp⟩ := h
  have hms : 0 ≤ (s.ledger.markets req.market_id).total_supply :=
    hm req.market_id
  unfold execute_trade
  cases hk : s.idem req.idempotency_key with
  | some t => exact ⟨hm, hb, hp⟩
  | none =>
    cases htt : req.trade_type with
    | buy =>
      dsimp only
      split_ifs with h1 h2 h3
      · exact ⟨hm, hb, hp⟩
      · exact ⟨hm, hb, hp⟩
      · exact ⟨hm, hb, hp⟩
      · have hsh : 0 < req.shares := lt_of_not_le h1
        have hcost : 0 ≤ (get_buy_cost
            (s.ledger.markets req.market_id).total_supply req.shares).cost_before_fee :=
          cost_before_fee_nonneg hms (le_of_lt hsh)
        have hfee : 0 ≤ (get_buy_cost
            (s.ledger.markets req.market_id).total_supply req.shares).fee := by
          rw [get_buy_cost_fee]; nlinarith
        have hb1 : ∀ u, 0 ≤ Function.update s.ledger.balances req.user_id
            (s.ledger.balances req.user_id -
              (get_buy_cost (s.ledger.markets req.market_id).total_supply
                req.shares).total_cost) u :=
          update_forall (fun x : ℝ => 0 ≤ x) _ _ _ hb
            (by linarith [not_lt.mp h3])
        refine ⟨?_, ?_, ?_⟩
        · refine update_forall (fun mk : Market => 0 ≤ mk.total_supply)
            _ _ _ hm ?_
          dsimp only
          rw [get_buy_cost_new_supply]
          linarith
        · refine update_forall (fun x : ℝ => 0 ≤ x) _ _ _ hb1 ?_
          dsimp only
          rw [distribute_fees_split_creator]
          have := hb1 (s.ledger.markets req.market_id).creator_id
          linarith
        · refine update_forall
            (fun g : ℕ → Position => ∀ mid, 0 ≤ (g mid).shares_owned)
            _ _ _ (fun u => hp u) ?_
          refine update_forall (fun p : Position => 0 ≤ p.shares_owned)
            _ _ _ (hp req.user_id) ?_
          dsimp only
          have := hp req.user_id req.market_id
          linarith
    | sell =>
      dsimp only
      split_ifs with h1 h2 h3 h4
      · exact ⟨hm, hb, hp⟩
      · exact ⟨hm, hb, hp⟩
      · exact ⟨hm, hb, hp⟩
      · exact ⟨hm, hb, hp⟩
      · have hsh : 0 < req.shares := lt_of_not_le h1
        have hle : req.shares ≤ (s.ledger.markets req.market_id).total_supply :=
          not_lt.mp h3
        have hrev : 0 ≤ (get_sell_revenue
            (s.ledger.markets req.market_id).total_supply
            req.shares).revenue_before_fee :=
          revenue_before_fee_nonneg (le_of_lt hsh) hle
        have hfee : 0 ≤ (get_sell_revenue
            (s.ledger.markets req.market_id).total_supply req.shares).fee := by
          rw [get_sell_revenue_fee]; nlinarith
        have htot : 0 ≤ (get_sell_revenue
            (s.ledger.markets req.market_id).total_supply
            req.shares).total_revenue := by
          rw [get_sell_revenue_total_revenue, get_sell_revenue_fee]; nlinarith
        have hb1 : ∀ u, 0 ≤ Function.update s.ledger.balances req.user_id
            (s.ledger.balances req.user_id +
              (get_sell_revenue (s.ledger.markets req.market_id).total_supply
                req.shares).total_revenue) u :=
          update_forall (fun x : ℝ => 0 ≤ x) _ _ _ hb
            (by linarith [hb req.user_id])
        refine ⟨?_, ?_, ?_⟩
        · refine update_forall (fun mk : Market => 0 ≤ mk.total_supply)
            _ _ _ hm ?_
          dsimp only
          rw [get_sell_revenue_new_supply]
          linarith
        · refine update_forall (fun x : ℝ => 0 ≤ x) _ _ _ hb1 ?_
          dsimp only
          rw [distribute_fees_split_creator]
          have := hb1 (s.ledger.markets req.market_id).creator_id
          linarith
        · refine update_forall
            (fun g : ℕ → Position => ∀ mid, 0 ≤ (g mid).shares_owned)
            _ _ _ (fun u => hp u) ?_
          refine update_forall (fun p : Position => 0 ≤ p.shares_owned)
            _ _ _ (hp req.user_id) ?_
          dsimp only
          linarith [not_lt.mp h4]

/-- The fresh state satisfies the non-negativity invariant. -/
lemma initState_nonneg : LedgerNonNeg initState.ledger := by
  refine ⟨fun m => ?_, fun u => ?_, fun u m => ?_⟩ <;>
    norm_num [initState, marketDefaults]

/-- C1: after any sequence of committed trades — that is, in every executor
state reachable from the fresh state through `execute_trade` steps — every
market's `total_supply`, every user's balance and every position's
`shares_owned` is non-negative. -/
theorem reachable_ledger_nonneg (s : ExecState) (h : Reachable s) :
    LedgerNonNeg s.ledger := by
  induction h with
  | init => exact initState_nonneg
  | step s' req _ ih => exact execute_trade_preserves_nonneg s' req ih

/-- Witness for C1 at the concrete fresh state. -/
theorem reachable_ledger_nonneg_witness : LedgerNonNeg initState.ledger :=
  reachable_ledger_nonneg initState Reachable.init

/-- Any call of `execute_trade` that returns a committed trade leaves the
idempotency map resolving the request's key to that very trade. -/
lemma execute_trade_committed_idem (s : ExecState) (req : TradeRequest)
    (t : Trade) (s1 : ExecState)
    (hexec : execute_trade s req = (.committed t, s1)) :
    s1.idem req.idempotency_key = some t := by
  unfold execute_trade at hexec
  cases hk : s.idem req.idempotency_key with
  | some t' =>
    rw [hk] at hexec
    dsimp only at hexec
    simp only [Prod.mk.injEq, TradeResult.committed.injEq] at hexec
    obtain ⟨rfl, rfl⟩ := hexec
    exact hk
  | none =>
    rw [hk] at hexec
    cases htt : req.trade_type with
    | buy =>
      rw [htt] at hexec
      dsimp only at hexec
      split_ifs at hexec with h1 h2 h3
      all_goals
        first
        | exact TradeResult.noConfusion (congrArg Prod.fst hexec)
        | (simp only [Prod.mk.injEq, TradeResult.committed.injEq] at hexec
           obtain ⟨rfl, rfl⟩ := hexec
           simp [Function.update_same])
    | sell =>
      rw [htt] at hexec
      dsimp only at hexec
      split_ifs at hexec with h1 h2 h3 h4
      all_goals
        first
        | exact TradeResult.noConfusion (congrArg Prod.fst hexec)
        | (simp only [Prod.mk.injEq, TradeResult.committed.injEq] at hexec
           obtain ⟨rfl, rfl⟩ := hexec
           simp [Function.update_same])

/-- C3: idempotence of `execute_trade`.  If a call with a given idempotency
key commits trade `t` and leaves state `s1`, a second call with the same
key and the same arguments short-circuits: it returns the very same
committed trade record (hence the identical `Trade.id`) and performs no
further mutation of any Balance, Position or Market — the state after the
second call is exactly `s1`. -/
theorem execute_trade_idempotent (s : ExecState) (req : TradeRequest)
    (t : Trade) (s1 : ExecState)
    (hexec : execute_trade s req = (.committed t, s1)) :
    execute_trade s1 req = (.committed t, s1) := by
  have hidem := execute_trade_committed_idem s req t s1 hexec
  unfold execute_trade
  rw [hidem]

/-- A buy request against an unresolved idempotency key, a live market, a
positive quantity and a sufficient balance commits. -/
lemma execute_trade_commits_buy (s : ExecState) (req : TradeRequest)
    (hk : s.idem req.idempotency_key = none)
    (htt : req.trade_type = TradeType.buy)
    (h1 : ¬ req.shares ≤ 0)
    (h2 : (s.ledger.markets req.market_id).is_frozen = false)
    (h3 : ¬ s.ledger.balances req.user_id <
      (get_buy_cost (s.ledger.markets req.market_id).total_supply
        req.shares).total_cost) :
    ∃ t s1, execute_trade s req = (.committed t, s1) := by
  unfold execute_trade
  rw [hk, htt]
  dsimp only
  rw [if_neg h1, if_neg (by simp [h2]), if_neg h3]
  exact ⟨_, _, rfl⟩

/-- Concrete evaluation: the total buy cost of one share on an empty
market. -/
lemma get_buy_cost_zero_one_total : (get_buy_cost 0 1).total_cost = 0.00408 := by
  rw [get_buy_cost_total_cost, get_buy_cost_fee, get_buy_cost_cost_before_fee]
  rw [zero_add, Real.one_rpow, Real.zero_rpow (by norm_num)]
  norm_num

/-- The demo buy request commits against the demo state. -/
lemma execute_trade_demo :
    ∃ t s1, execute_trade demoState demoReq = (.committed t, s1) := by
  refine execute_trade_commits_buy demoState demoReq rfl rfl ?_ rfl ?_
  · norm_num [demoReq]
  · have hms : (demoState.ledger.markets demoReq.market_id).total_supply = 0 :=
      rfl
    have hsh : demoReq.shares = 1 := rfl
    have hbal : demoState.ledger.balances demoReq.user_id = 1000 := rfl
    rw [hms, hsh, hbal, get_buy_cost_zero_one_total]
    norm_num

/-- Witness for C3: a concrete committed buy, replayed with the same
idempotency key, returns the identical trade and the unchanged state. -/
theorem execute_trade_idempotent_witness :
    ∃ t s1, execute_trade demoState demoReq = (.committed t, s1) ∧
      execute_trade s1 demoReq = (.committed t, s1) := by
  obtain ⟨t, s1, h⟩ := execute_trade_demo
  exact ⟨t, s1, h, execute_trade_idempotent demoState demoReq t s1 h⟩

/-- C2: the fee split uses the fixed 50/30/20 proportions — for every
`fee_amount`, `creator_share = 0.50 * fee_amount`,
`platform_share = 0.30 * fee_amount`, `liquidity_share = 0.20 * fee_amount`
— and the three shares sum exactly (hence within any rounding tolerance) to
the input fee, so conservation holds for every committed trade's fee. -/
theorem distribute_fees_split_conservation (fee_amount : ℝ) :
    (distribute_fees_split fee_amount).creator_share = 0.50 * fee_amount ∧
    (distribute_fees_split fee_amount).platform_share = 0.30 * fee_amount ∧
    (distribute_fees_split fee_amount).liquidity_share = 0.20 * fee_amount ∧
    (distribute_fees_split fee_amount).creator_share +
      (distribute_fees_split fee_amount).platform_share +
      (distribute_fees_split fee_amount).liquidity_share = fee_amount := by
  refine ⟨?_, ?_, ?_, ?_⟩ <;>
    simp only [distribute_fees_split_creator, distribute_fees_split_platform,
      distribute_fees_split_liquidity] <;> ring

/-- C7: the price function with the default constants is monotonically
non-decreasing on non-negative supplies. -/
theorem get_price_monotone (s1 s2 : ℝ) (h0 : 0 ≤ s1) (h12 : s1 < s2) :
    get_price s1 ≤ get_price s2 := by
  unfold get_price
  have h := Real.rpow_le_rpow h0 (le_of_lt h12) (by norm_num : (0:ℝ) ≤ 1.5)
  nlinarith [h]

/-- Witness for C7 at supplies 1 and 2. -/
theorem get_price_monotone_witness : get_price 1 ≤ get_price 2 :=
  get_price_monotone 1 2 (by norm_num) (by norm_num)

/-- C8: selling `shares` immediately after buying the same quantity — the
sell revenue evaluated at the post-buy supply `supply + shares`, fees
ignored — returns exactly (hence within any rounding tolerance) the pre-fee
buy cost. -/
theorem buy_sell_inverse (s sh : ℝ) (hs : 0 ≤ s) (hsh : 0 < sh) :
    (get_sell_revenue (s + sh) sh).revenue_before_fee =
      (get_buy_cost s sh).cost_before_fee := by
  rw [get_sell_revenue_revenue_before_fee, get_buy_cost_cost_before_fee,
    add_sub_cancel_right]

/-- Witness for C8 at supply 1, one share. -/
theorem buy_sell_inverse_witness :
    (get_sell_revenue (1 + 1) 1).revenue_before_fee =
      (get_buy_cost 1 1).cost_before_fee :=
  buy_sell_inverse 1 1 (by norm_num) (by norm_num)

/-- C10: a buy of `shares` followed by an immediate sell of the same
quantity loses exactly twice the 2% fee rate of the pre-fee cost — the
total paid minus the total received is exactly `0.04 * cost_before_fee`. -/
theorem buy_sell_round_trip_cost (s sh : ℝ) (hs : 0 ≤ s) (hsh : 0 < sh) :
    (get_buy_cost s sh).total_cost -
      (get_sell_revenue (s + sh) sh).total_revenue =
      0.04 * (get_buy_cost s sh).cost_before_fee := by
  rw [get_buy_cost_total_cost, get_buy_cost_fee,
    get_sell_revenue_total_revenue, get_sell_revenue_fee,
    get_sell_revenue_revenue_before_fee, get_buy_cost_cost_before_fee,
    add_sub_cancel_right]
  ring

/-- Witness for C10 at supply 1, one share. -/
theorem buy_sell_round_trip_cost_witness :
    (get_buy_cost 1 1).total_cost -
      (get_sell_revenue (1 + 1) 1).total_revenue =
      0.04 * (get_buy_cost 1 1).cost_before_fee :=
  buy_sell_round_trip_cost 1 1 (by norm_num) (by norm_num)

/-- C5: `buy_cost` requires `shares > 0` — it fails with `InvalidQuantity`
on every input with `shares ≤ 0` — and for `shares > 0` it returns the
definite integral
`base/(exponent+1) * ((supply+shares)^(exponent+1) - supply^(exponent+1))`
of the price function from `supply` to `supply + shares`. -/
theorem buy_cost_requires_positive_shares :
    (∀ s sh : ℝ, sh ≤ 0 → buy_cost s sh = .error .invalidQuantity) ∧
    (∀ s sh : ℝ, 0 < sh → buy_cost s sh =
      .ok ((0.01 / (1.5 + 1)) *
        ((s + sh) ^ (1.5 + 1 : ℝ) - s ^ (1.5 + 1 : ℝ)))) := by
  constructor
  · intro s sh h
    unfold buy_cost
    rw [if_pos h]
  · intro s sh h
    unfold buy_cost
    rw [if_neg (not_le.mpr h), get_buy_cost_cost_before_fee]

/-- Witness for C5: an invalid quantity is rejected, a valid one priced. -/
theorem buy_cost_requires_positive_shares_witness :
    buy_cost 100 0 = .error .invalidQuantity ∧
    buy_cost 0 1 = .ok ((0.01 / (1.5 + 1)) *
      (((0:ℝ) + 1) ^ (1.5 + 1 : ℝ) - (0:ℝ) ^ (1.5 + 1 : ℝ))) :=
  ⟨buy_cost_requires_positive_shares.1 100 0 (by norm_num),
   buy_cost_requires_positive_shares.2 0 1 (by norm_num)⟩

/-- C6: `sell_revenue` requires `shares ≤ supply` — on every input with
`shares > supply` it fails with `InsufficientSupply` and never returns a
numeric result — and for `0 < shares ≤ supply` it returns the integral of
the price function from `supply - shares` to `supply`. -/
theorem sell_revenue_requires_sufficient_supply :
    (∀ s sh : ℝ, s < sh → sell_revenue s sh = .error .insufficientSupply) ∧
    (∀ s sh : ℝ, 0 < sh → sh ≤ s → sell_revenue s sh =
      .ok ((0.01 / (1.5 + 1)) *
        (s ^ (1.5 + 1 : ℝ) - (s - sh) ^ (1.5 + 1 : ℝ)))) := by
  constructor
  · intro s sh h
    unfold sell_revenue
    rw [if_pos h]
  · intro s sh hpos hle
    unfold sell_revenue
    rw [if_neg (not_lt.mpr hle), if_neg (not_le.mpr hpos),
      get_sell_revenue_revenue_before_fee]

/-- Witness for C6: overselling is rejected, a covered sell is priced. -/
theorem sell_revenue_requires_sufficient_supply_witness :
    sell_revenue 5 10 = .error .insufficientSupply ∧
    sell_revenue 2 1 = .ok ((0.01 / (1.5 + 1)) *
      ((2:ℝ) ^ (1.5 + 1 : ℝ) - ((2:ℝ) - 1) ^ (1.5 + 1 : ℝ))) :=
  ⟨sell_revenue_requires_sufficient_supply.1 5 10 (by norm_num),
   sell_revenue_requires_sufficient_supply.2 2 1 (by norm_num) (by norm_num)⟩

/-- Rational bounds on the square root of 110. -/
lemma sqrt110_bounds : 10.488 < Real.sqrt 110 ∧ Real.sqrt 110 < 10.4882 := by
  have h := Real.sq_sqrt (by norm_num : (0:ℝ) ≤ 110)
  have hnn := Real.sqrt_nonneg 110
  constructor <;> nlinarith [h, hnn]

/-- Evaluation of the 2.5 power at 110. -/
lemma rpow_110 : (110:ℝ) ^ (1.5 + 1 : ℝ) = 12100 * Real.sqrt 110 := by
  have h25 : (1.5 + 1 : ℝ) = ((2:ℕ):ℝ) + 1/2 := by norm_num
  rw [h25, Real.rpow_add (by norm_num : (0:ℝ) < 110), Real.rpow_natCast,
    ← Real.sqrt_eq_rpow]
  norm_num

/-- Evaluation of the 2.5 power at 100. -/
lemma rpow_100 : (100:ℝ) ^ (1.5 + 1 : ℝ) = 100000 := by
  have h25 : (1.5 + 1 : ℝ) = ((2:ℕ):ℝ) + 1/2 := by norm_num
  rw [h25, Real.rpow_add (by norm_num : (0:ℝ) < 100), Real.rpow_natCast,
    ← Real.sqrt_eq_rpow,
    show (100:ℝ) = 10 ^ 2 by norm_num,
    Real.sqrt_sq (by norm_num : (0:ℝ) ≤ 10)]
  norm_num

/-- Closed form of the pre-fee cost of buying 10 shares at supply 100. -/
lemma buy_cost_100_10_before_fee :
    (get_buy_cost 100 10).cost_before_fee = 48.4 * Real.sqrt 110 - 400 := by
  rw [get_buy_cost_cost_before_fee, show (100:ℝ) + 10 = 110 by norm_num,
    rpow_110, rpow_100]
  ring

/-- Closed form of the fee-inclusive cost of buying 10 shares at supply
100. -/
lemma buy_cost_100_10_total :
    (get_buy_cost 100 10).total_cost = (48.4 * Real.sqrt 110 - 400) * 1.02 := by
  rw [get_buy_cost_total_cost, get_buy_cost_fee, buy_cost_100_10_before_fee]
  ring

/-- Counterexample for C4: at supply 100, buying 10 shares has a pre-fee
cost of about 107.62 and a fee-inclusive total of about 109.78 — more than 3 credits away
from the 104.4 and 106.5 the claim states. -/
theorem buy_scenario_counterexample :
    ¬ |(get_buy_cost 100 10).cost_before_fee - 104.4| < 3 ∧
    ¬ |(get_buy_cost 100 10).total_cost - 106.5| < 3 := by
  obtain ⟨hlo, hhi⟩ := sqrt110_bounds
  constructor
  · rw [buy_cost_100_10_before_fee, not_lt]
    refine le_abs.mpr (Or.inl ?_)
    linarith
  · rw [buy_cost_100_10_total, not_lt]
    refine le_abs.mpr (Or.inl ?_)
    linarith

/-- C4 (amended): in a market with `total_supply = 100`, `base = 0.01`,
`exponent = 1.5` and `fee_rate = 0.02`, buying 10 shares yields a pre-fee
cost of `0.01/2.5 * (110^2.5 - 100^2.5)`, which is approximately 107.62
credits (not 104.4), a total including the fee of approximately 109.78
credits (not 106.5), and `new_supply = 110`. -/
theorem buy_scenario_amended :
    (get_buy_cost 100 10).cost_before_fee =
      0.01 / 2.5 * ((110:ℝ) ^ (2.5:ℝ) - (100:ℝ) ^ (2.5:ℝ)) ∧
    |(get_buy_cost 100 10).cost_before_fee - 107.62| < 0.01 ∧
    |(get_buy_cost 100 10).total_cost - 109.78| < 0.01 ∧
    (get_buy_cost 100 10).new_supply = 110 := by
  obtain ⟨hlo, hhi⟩ := sqrt110_bounds
  refine ⟨?_, ?_, ?_, ?_⟩
  · rw [get_buy_cost_cost_before_fee]
    norm_num
  · rw [buy_cost_100_10_before_fee, abs_lt]
    constructor <;> linarith
  · rw [buy_cost_100_10_total, abs_lt]
    constructor <;> linarith
  · rw [get_buy_cost_new_supply]
    norm_num

/-- Evaluation of the 1.5 power at 100. -/
lemma rpow_100_three_halves : (100:ℝ) ^ (1.5:ℝ) = 1000 := by
  have h15 : (1.5:ℝ) = ((1:ℕ):ℝ) + 1/2 := by norm_num
  rw [h15, Real.rpow_add (by norm_num : (0:ℝ) < 100), Real.rpow_natCast,
    ← Real.sqrt_eq_rpow,
    show (100:ℝ) = 10 ^ 2 by norm_num,
    Real.sqrt_sq (by norm_num : (0:ℝ) ≤ 10)]
  norm_num

/-- The curve price at the seeded supply of 100 shares. -/
lemma get_price_100 : get_price 100 = 10 := by
  unfold get_price
  rw [rpow_100_three_halves]
  norm_num

/-- Counterexample for C9: a newly created market carries the schema
defaults `total_supply = 100` and `price_current = 1.00`, while the bonding
curve gives `price(100) = 10` — the seeded `price_current` is not derived
from `total_supply` via the curve. -/
theorem market_price_current_counterexample :
    marketDefaults.total_supply = 100 ∧
    marketDefaults.price_current = 1 ∧
    get_price marketDefaults.total_supply = 10 ∧
    marketDefaults.price_current ≠ get_price marketDefaults.total_supply := by
  have h100 : marketDefaults.total_supply = (100:ℝ) := rfl
  refine ⟨rfl, rfl, ?_, ?_⟩
  · rw [h100, get_price_100]
  · rw [h100, get_price_100]
    norm_num [marketDefaults]

/-- C9 (amended): `price_current` is the last traded price.  Every trade
records `new_price = get_price(new supply)`, so after a trade the market's
`price_current` is derived from its `total_supply` via the bonding curve
and is non-negative for non-negative supplies; but a newly created market
is seeded with the schema default `price_current = 1.00`, which is not
`price(100) = 10`. -/
theorem market_price_current_amended :
    (∀ s sh : ℝ, (get_buy_cost s sh).new_price = get_price (s + sh) ∧
      (get_sell_revenue s sh).new_price = get_price (s - sh)) ∧
    (∀ s : ℝ, 0 ≤ s → 0 ≤ get_price s) ∧
    marketDefaults.price_current = 1 := by
  refine ⟨fun s sh => ⟨rfl, rfl⟩, fun s hs => ?_, rfl⟩
  unfold get_price
  have := Real.rpow_nonneg hs (1.5:ℝ)
  nlinarith [this]

/-- Witness for C9 (amended) at supply 4. -/
theorem market_price_current_amended_witness : 0 ≤ get_price 4 :=
  market_price_current_amended.2.1 4 (by norm_num)
